import Mathlib

/-!
Verification of the minted aggregation engine (internal/hledger and the
dashboard cache service) against its specification.

Conventions of the embedding:
* Go `float64` money arithmetic is modelled over `ℚ`; every operation the
  source performs (sums, divisions, `math.Round(x*100)/100`) is exact on the
  inputs considered here, so `ℚ` is a faithful carrier.
* Go `string` is modelled as `List Char` (`Str`), so that truncation
  (`date[:7]`), segment splitting on `:`, prefix tests and lexicographic
  comparison keep Go's byte-wise meaning and stay kernel-computable.
* A Go `map` with accumulating writes (`m[k] += v`) is modelled by the pair
  (list of its keys in first-insertion order, deduplicated; total sum of the
  contributions at a key).  Key presence matters (a key written with 0 exists),
  which the deduplicated key list preserves; per-key totals are
  iteration-order independent, as are every output the reports build from
  them, so this models the Go map exactly up to its (unspecified) iteration
  order.
* `hledger` subprocess calls are external inputs: each report function takes
  the transaction list the call would have returned.  Failure of a call is
  modelled where a claim needs it (the cache rebuild) by `Except`.
-/

set_option maxRecDepth 8000

set_option allowUnsafeReducibility true
attribute [local semireducible] Rat.add Rat.mul Rat.sub Rat.div Rat.neg Rat.inv

namespace Minted

/-- Go strings, as their character sequences. -/
abbrev Str := List Char

/-- Literal notation helper: the characters of a Lean string literal. -/
def str (s : String) : Str := s.data

/-- Byte/character-wise lexicographic `<` of Go strings. -/
def strLt : Str → Str → Bool
  | [], [] => false
  | [], _ :: _ => true
  | _ :: _, [] => false
  | a :: as, b :: bs => if a < b then true else if b < a then false else strLt as bs

/-- `a <= b` on Go strings (total order used by `sort.Strings` / `sort.Slice`). -/
def strLe (a b : Str) : Bool := !(strLt b a)

/-- `strings.Split(s, ":")` (Go splits on every separator; `""` gives `[""]`). -/
def splitColon : Str → List Str
  | [] => [[]]
  | a :: as =>
    let rest := splitColon as
    if a = ':' then [] :: rest
    else
      match rest with
      | [] => [[a]]
      | r :: rs => (a :: r) :: rs

/-- `strings.HasPrefix(s, pre)`. -/
def goHasPrefix (s pre : Str) : Bool := pre.isPrefixOf s

/-- `internal/hledger/parser.go` `Quantity`: fixed-point mantissa and scale. -/
structure Quantity where
  decimalMantissa : ℤ
  decimalPlaces : ℕ
  deriving DecidableEq

/-- `parser.go` `Amount`: one commodity amount of a posting. -/
structure Amount where
  commodity : Str
  quantity : Quantity
  deriving DecidableEq

/-- `parser.go` `Posting`: one leg of a transaction. -/
structure Posting where
  account : Str
  amount : List Amount
  comment : Str
  deriving DecidableEq

/-- `parser.go` `Transaction`. -/
structure Transaction where
  tdate : Str
  tdescription : Str
  tpostings : List Posting
  deriving DecidableEq

/-- `parser.go` `Account` (name, balance, currency). -/
structure Account where
  name : Str
  balance : ℚ
  currency : Str
  deriving DecidableEq

/-- `parser.go` `BudgetItem`. -/
structure BudgetItem where
  category : Str
  average : ℚ
  currentMonth : ℚ
  variance : ℚ
  percentBudget : ℚ
  deriving DecidableEq

/-- `parser.go` `MonthlyMetrics`. -/
structure MonthlyMetrics where
  month : Str
  income : ℚ
  expenses : ℚ
  netWorth : ℚ
  savingsRate : ℚ
  deriving DecidableEq

/-- `parser.go` `CategorySpending`. -/
structure CategorySpending where
  month : Str
  category : Str
  amount : ℚ
  deriving DecidableEq

/-- `parser.go` `NetWorthPoint`. -/
structure NetWorthPoint where
  date : Str
  netWorth : ℚ
  deriving DecidableEq

/-- `parser.go` `MonthAmountPair`. -/
structure MonthAmountPair where
  month : Str
  amount : ℚ
  deriving DecidableEq

/-- `parser.go` `CategoryTrendData`. -/
structure CategoryTrendData where
  category : Str
  data : List MonthAmountPair
  deriving DecidableEq

/-- `parser.go` `YearOverYearData`; the `years` Go map is kept as the
(year, total) pairs in first-insertion order. -/
structure YearOverYearData where
  month : Str
  years : List (Str × ℚ)
  deriving DecidableEq

/-- `MonthBudget`, as the struct literals of
`filtered_methods.go` (GetBudgetHistoryFiltered) populate it. -/
structure MonthBudget where
  month : Str
  year : Str
  amount : ℚ
  percentOfBudget : ℚ
  overBudget : Bool
  deriving DecidableEq

/-- `BudgetHistoryItem`, as the struct literals of `filtered_methods.go`
populate it. -/
structure BudgetHistoryItem where
  category : Str
  average : ℚ
  averageExcludingExtremes : ℚ
  months : List MonthBudget
  deriving DecidableEq

/-- `SubcategoryBreakdown`, as the struct literals of `filtered_methods.go`
populate it. -/
structure SubcategoryBreakdown where
  name : Str
  amount : ℚ
  deriving DecidableEq

/-- `CategoryDetailData`, as the struct literal of
`GetCategoryDetailFiltered` populates it. -/
structure CategoryDetailData where
  category : Str
  transactions : List Transaction
  budgetHistory : List BudgetHistoryItem
  breakdown : List SubcategoryBreakdown
  deriving DecidableEq

/-- `internal/config/settings.go` `Tier`. -/
structure Tier where
  name : Str
  categories : List Str
  color : Str
  deriving DecidableEq

/-- The slice of `internal/config/settings.go` `Settings` that the
aggregation engine reads: the tier list, and the subcategory depth used by
the detail builders (`p.settings.SubcategoryDepth`). -/
structure Settings where
  tiers : List Tier
  subcategoryDepth : ℕ
  deriving DecidableEq

/-- `settings.go` `GetTierForCategory`: first tier whose category list
contains the category. -/
def getTierForCategory (s : Settings) (category : Str) : Option Tier :=
  s.tiers.find? (fun t => t.categories.contains category)

/-- `parser.go` `convertAmount`: `mantissa / 10^places` (the Go loop builds
the divisor `10^places`). -/
def convertAmount (q : Quantity) : ℚ := (q.decimalMantissa : ℚ) / 10 ^ q.decimalPlaces

/-- `parser.go` `getYearMonth`: truncate `YYYY-MM-DD` to `YYYY-MM`. -/
def getYearMonth (dateStr : Str) : Str :=
  if 7 ≤ dateStr.length then dateStr.take 7 else dateStr

/-- `math.Round`: round half away from zero. -/
def goRound (x : ℚ) : ℚ :=
  if x < 0 then -((Rat.floor (-x + 1 / 2) : ℤ) : ℚ) else ((Rat.floor (x + 1 / 2) : ℤ) : ℚ)

/-- `math.Round(x*100) / 100`: the 2-decimal rounding every report emits. -/
def round2 (x : ℚ) : ℚ := goRound (x * 100) / 100

/-- The first amount of a posting, 0 when the amount list is empty
(`if len(posting.Amount) > 0 { amount = convertAmount(...) }`). -/
def postingAmount (p : Posting) : ℚ :=
  match p.amount with
  | [] => 0
  | a :: _ => convertAmount a.quantity

/-- The category of an expense account: second `:`-segment, or the whole
account when it has a single segment. -/
def categoryOf (account : Str) : Str :=
  let parts := splitColon account
  if 2 ≤ parts.length then parts.getD 1 [] else account

/-- Whether a posting books to an `expenses:` account. -/
def isExpensePosting (p : Posting) : Bool := goHasPrefix p.account (str "expenses:")

/-- The posting amount made positive (`if amount < 0 { amount = -amount }`). -/
def expAmount (p : Posting) : ℚ :=
  let amount := postingAmount p
  if amount < 0 then -amount else amount

/-- One (month, category, positive amount) contribution per expense posting:
the stream of writes `monthlyByCategory[month][category] += amount` performs
(`GetMonthlySpending`, and the identical loops of `GetCategorySpending` and
`GetBudgetHistoryFiltered`). -/
def expenseEntries (txs : List Transaction) : List (Str × Str × ℚ) :=
  txs.flatMap fun tx =>
    (tx.tpostings.filter isExpensePosting).map fun p =>
      (getYearMonth tx.tdate, categoryOf p.account, expAmount p)

/-- The key set of the Go map `month -> category -> total`, in first-write
order. -/
def expenseKeys (txs : List Transaction) : List (Str × Str) :=
  ((expenseEntries txs).map (fun e => (e.1, e.2.1))).dedup

/-- The total the Go map holds at key (month, category): the sum of that
key's contributions (0 when the key was never written). -/
def spendOf (txs : List Transaction) (month category : Str) : ℚ :=
  (((expenseEntries txs).filter
      (fun e => decide (e.1 = month) && decide (e.2.1 = category))).map
    (fun e => e.2.2)).sum

/-- `parser.go` `removeOutliers`: IQR trimming on the sorted values, with the
`len <= 2` and `q1Index == q3Index` early exits (the Go `sort.Float64s` sorts
in place, so the second exit returns the sorted slice). -/
def removeOutliers (values : List ℚ) : List ℚ :=
  if values.length ≤ 2 then values
  else
    let sorted := List.insertionSort (fun a b : ℚ => a ≤ b) values
    let q1Index := values.length / 4
    let q3Index := values.length * 3 / 4
    if q1Index = q3Index then sorted
    else
      let q1 := sorted.getD q1Index 0
      let q3 := sorted.getD q3Index 0
      let iqr := q3 - q1
      let lowerBound := q1 - 3 / 2 * iqr
      let upperBound := q3 + 3 / 2 * iqr
      sorted.filter fun v => decide (lowerBound ≤ v) && decide (v ≤ upperBound)

/-- The Q1 the source reads: sorted value at index `n / 4`. -/
def q1Of (values : List ℚ) : ℚ :=
  (List.insertionSort (fun a b : ℚ => a ≤ b) values).getD (values.length / 4) 0

/-- The Q3 the source reads: sorted value at index `3n / 4`. -/
def q3Of (values : List ℚ) : ℚ :=
  (List.insertionSort (fun a b : ℚ => a ≤ b) values).getD (values.length * 3 / 4) 0

/-- Spec wording of the IQR policy (§4.4 Policy A), with no early exits:
sort; Q1 at `⌊n/4⌋` and Q3 at `⌊3n/4⌋`; keep exactly the values within
`[Q1 - 1.5*IQR, Q3 + 1.5*IQR]`. Stated for comparison with `removeOutliers`. -/
def iqrKeepSpec (values : List ℚ) : List ℚ :=
  let sorted := List.insertionSort (fun a b : ℚ => a ≤ b) values
  let q1 := sorted.getD (values.length / 4) 0
  let q3 := sorted.getD (values.length * 3 / 4) 0
  let iqr := q3 - q1
  let lowerBound := q1 - 3 / 2 * iqr
  let upperBound := q3 + 3 / 2 * iqr
  sorted.filter fun v => decide (lowerBound ≤ v) && decide (v ≤ upperBound)

/-- Plain mean, `sum / float64(len)` (0 on the empty list, as `0/0 = 0` in ℚ). -/
def meanQ (l : List ℚ) : ℚ := l.sum / (l.length : ℚ)

/-- `GetBudgetData`: the categories with a (month ≠ current) key, i.e. the
keys of `categoryHistory`. -/
def budgetCategories (txs : List Transaction) (currentMonth : Str) : List Str :=
  (((expenseKeys txs).filter (fun k => !decide (k.1 = currentMonth))).map
    (fun k => k.2)).dedup

/-- `GetBudgetData`: `categoryHistory[category]`, one summed amount per
non-current month in which the category was written. -/
def historyAmounts (txs : List Transaction) (currentMonth category : Str) : List ℚ :=
  (((expenseKeys txs).filter
      (fun k => !decide (k.1 = currentMonth) && decide (k.2 = category))).map
    (fun k => spendOf txs k.1 k.2))

/-- `parser.go` `GetBudgetData` on the transactions its `hledger` call
returned, with the wall-clock current month a parameter: per category with
at least 2 months of non-current history, average the IQR-trimmed history,
compare the current month against it, round at emission, sort by category. -/
def getBudgetData (txs : List Transaction) (currentMonth : Str) : List BudgetItem :=
  List.insertionSort (fun a b => strLe a.category b.category = true)
    (((budgetCategories txs currentMonth).filter
        (fun c => !decide ((historyAmounts txs currentMonth c).length < 2))).map
      fun category =>
        let amounts := historyAmounts txs currentMonth category
        let filtered := removeOutliers amounts
        let average := filtered.sum / (filtered.length : ℚ)
        let current := spendOf txs currentMonth category
        let variance := current - average
        let percentBudget := if 0 < average then current / average * 100 else 0
        { category := category
          average := round2 average
          currentMonth := round2 current
          variance := round2 variance
          percentBudget := round2 percentBudget })

/-- The §8 example history for the budget report: five months of `Food`
spending 100, 100, 100, 100, 1000 (amounts given to `hledger` as cents). -/
def c1txs : List Transaction :=
  [ ⟨str "2024-01-05", str "a", [⟨str "expenses:Food", [⟨str "$", ⟨10000, 2⟩⟩], []⟩]⟩
  , ⟨str "2024-02-05", str "b", [⟨str "expenses:Food", [⟨str "$", ⟨10000, 2⟩⟩], []⟩]⟩
  , ⟨str "2024-03-05", str "c", [⟨str "expenses:Food", [⟨str "$", ⟨10000, 2⟩⟩], []⟩]⟩
  , ⟨str "2024-04-05", str "d", [⟨str "expenses:Food", [⟨str "$", ⟨10000, 2⟩⟩], []⟩]⟩
  , ⟨str "2024-05-05", str "e", [⟨str "expenses:Food", [⟨str "$", ⟨100000, 2⟩⟩], []⟩]⟩ ]

/-- `GetBudgetHistoryFiltered`: `allMonths`, the sorted keys of the
`month -> category -> amount` map. -/
def bhAllMonths (txs : List Transaction) : List Str :=
  List.insertionSort (fun a b => strLe a b = true)
    (((expenseKeys txs).map (fun k => k.1)).dedup)

/-- `GetBudgetHistoryFiltered`: the keys of `categoryHistory`, in first-write
order. -/
def bhCategories (txs : List Transaction) : List Str :=
  ((expenseKeys txs).map (fun k => k.2)).dedup

/-- `GetBudgetHistoryFiltered`: `categoryHistory[category]`, one summed
amount per month the category was written in. -/
def bhAmounts (txs : List Transaction) (category : Str) : List ℚ :=
  ((expenseKeys txs).filter (fun k => decide (k.2 = category))).map
    (fun k => spendOf txs k.1 k.2)

/-- `GetBudgetHistoryFiltered`: `filteredAmounts`, the values at most twice
the untrimmed mean (`if v <= avg*2`). -/
def bhFilteredAmounts (amounts : List ℚ) : List ℚ :=
  amounts.filter (fun v => decide (v ≤ meanQ amounts * 2))

/-- `GetBudgetHistoryFiltered`: `avgExcludingExtremes`, the re-average of
`filteredAmounts` when any value survived, else the untrimmed mean. -/
def bhAvgExcludingExtremes (amounts : List ℚ) : ℚ :=
  if 0 < (bhFilteredAmounts amounts).length then
    (bhFilteredAmounts amounts).sum / ((bhFilteredAmounts amounts).length : ℚ)
  else meanQ amounts

/-- One iteration of `GetBudgetHistoryFiltered`'s `for category, amounts :=
range categoryHistory` loop body: the item built for one category. -/
def bhItem (txs : List Transaction) (category : Str) : BudgetHistoryItem :=
  let amounts := bhAmounts txs category
  let avg := meanQ amounts
  { category := category
    average := round2 avg
    averageExcludingExtremes := round2 (bhAvgExcludingExtremes amounts)
    months := (bhAllMonths txs).map fun month =>
      let amount := spendOf txs month category
      let percent := if 0 < avg then amount / avg * 100 else 0
      let year := if 4 ≤ month.length then month.take 4 else []
      { month := month
        year := year
        amount := round2 amount
        percentOfBudget := round2 percent
        overBudget := decide (avg < amount) } }

/-- `filtered_methods.go` `GetBudgetHistoryFiltered` on the transactions its
`hledger` call returned: per category with at least one month of history
(the `len(amounts) < 1` guard of the source), the untrimmed average, the
2x-mean-trimmed average, and the full per-month series, sorted by category. -/
def getBudgetHistoryFiltered (txs : List Transaction) : List BudgetHistoryItem :=
  List.insertionSort (fun a b => strLe a.category b.category = true)
    (((bhCategories txs).filter
        (fun c => !decide ((bhAmounts txs c).length < 1))).map
      (bhItem txs))

/-- A category with a single month of history. -/
def c6txs : List Transaction :=
  [⟨str "2024-01-15", str "t", [⟨str "expenses:Food", [⟨str "$", ⟨10000, 2⟩⟩], []⟩]⟩]

/-- The single `BudgetHistoryItem` the single-month input `c6txs` yields. -/
def c6item : BudgetHistoryItem :=
  ⟨str "Food", 100, 100, [⟨str "2024-01", str "2024", 100, 100, false⟩]⟩

/-- The Go map write `m[k] += v` on an association list in insertion order. -/
def updAdd : List (Str × ℚ) → Str → ℚ → List (Str × ℚ)
  | [], k, v => [(k, v)]
  | (k0, v0) :: rest, k, v =>
    if k0 = k then (k0, v0 + v) :: rest else (k0, v0) :: updAdd rest k v

/-- The Go map write `m[k] = v` (overwrite) on an association list. -/
def updSet : List (Str × ℚ) → Str → ℚ → List (Str × ℚ)
  | [], k, v => [(k, v)]
  | (k0, v0) :: rest, k, v =>
    if k0 = k then (k0, v) :: rest else (k0, v0) :: updSet rest k v

/-- The Go map read `m[k]` with zero default. -/
def findQ : List (Str × ℚ) → Str → ℚ
  | [], _ => 0
  | (k0, v0) :: rest, k => if k0 = k then v0 else findQ rest k

def isAsset (account : Str) : Bool := goHasPrefix account (str "assets:")
def isLiability (account : Str) : Bool := goHasPrefix account (str "liabilities:")

/-- `GetNetWorthOverTime`: `totalAssets`, summed over the balance map. -/
def nwTotalAssets (balances : List (Str × ℚ)) : ℚ :=
  ((balances.filter (fun b => isAsset b.1)).map (fun b => b.2)).sum

/-- `GetNetWorthOverTime`: `totalLiabilities += -balance` over the map. -/
def nwTotalLiabilities (balances : List (Str × ℚ)) : ℚ :=
  ((balances.filter (fun b => isLiability b.1)).map (fun b => -b.2)).sum

/-- One iteration of `GetNetWorthOverTime`'s transaction loop: accumulate
every posting into the per-account balances, then record the date's net
worth (assets minus liabilities-as-positive, rounded). -/
def nwStep (state : List (Str × ℚ) × List (Str × ℚ)) (tx : Transaction) :
    List (Str × ℚ) × List (Str × ℚ) :=
  let balances := tx.tpostings.foldl (fun b p => updAdd b p.account (postingAmount p)) state.1
  let netWorth := nwTotalAssets balances - nwTotalLiabilities balances
  (balances, updSet state.2 tx.tdate (round2 netWorth))

/-- `parser.go` `GetNetWorthOverTime`: running per-account balances over the
date-sorted transactions, one recorded point per transaction date. -/
def getNetWorthOverTime (txs : List Transaction) : List NetWorthPoint :=
  let sorted := List.insertionSort (fun a b => strLe a.tdate b.tdate = true) txs
  let daily := (sorted.foldl nwStep ([], [])).2
  let dates := List.insertionSort (fun a b => strLe a b = true) ((txs.map (fun t => t.tdate)).dedup)
  dates.map (fun d => ⟨d, findQ daily d⟩)

/-- The §8 net-worth example: +100 to `assets:checking` on 2024-01-01, then
-30 to `liabilities:card` on 2024-01-02. -/
def c7txs : List Transaction :=
  [ ⟨str "2024-01-01", str "a", [⟨str "assets:checking", [⟨str "$", ⟨10000, 2⟩⟩], []⟩]⟩
  , ⟨str "2024-01-02", str "b", [⟨str "liabilities:card", [⟨str "$", ⟨-3000, 2⟩⟩], []⟩]⟩ ]

/-- `GetNetWorthOverTimeFiltered`: the (date, signed contribution) writes to
`dateNetWorth` (liability amounts negated; per-date running balances are not
kept on this path). -/
def nwfEntries (txs : List Transaction) : List (Str × ℚ) :=
  txs.flatMap fun tx =>
    (tx.tpostings.filter (fun p => isAsset p.account || isLiability p.account)).map
      fun p =>
        (tx.tdate,
          if isLiability p.account then -(postingAmount p) else postingAmount p)

/-- `filtered_methods.go` `GetNetWorthOverTimeFiltered`: per date, the sum of
that date's asset/liability posting contributions alone, sorted by date. -/
def getNetWorthOverTimeFiltered (txs : List Transaction) : List NetWorthPoint :=
  List.insertionSort (fun a b => strLe a.date b.date = true)
    ((((nwfEntries txs).map (fun e => e.1)).dedup).map fun d =>
      ⟨d, round2 (((nwfEntries txs).filter (fun e => decide (e.1 = d))).map
          (fun e => e.2)).sum⟩)

/-- The `sort.Slice` order of `GetCategorySpending`: by month, then category. -/
def csLe (a b : CategorySpending) : Bool :=
  if a.month = b.month then strLe a.category b.category else strLt a.month b.month

/-- `parser.go` `GetCategorySpending`: one rounded (month, category, total)
triple per key of the monthly expense map, sorted by month then category. -/
def getCategorySpending (txs : List Transaction) : List CategorySpending :=
  List.insertionSort (fun a b => csLe a b = true)
    ((expenseKeys txs).map fun k => ⟨k.1, k.2, round2 (spendOf txs k.1 k.2)⟩)

/-- `filtered_methods.go` `GetCategorySpendingFiltered`: textually the same
aggregation as `GetCategorySpending`, on the date-bounded transaction list. -/
def getCategorySpendingFiltered (txs : List Transaction) : List CategorySpending :=
  List.insertionSort (fun a b => csLe a b = true)
    ((expenseKeys txs).map fun k => ⟨k.1, k.2, round2 (spendOf txs k.1 k.2)⟩)

/-- `GetCategoryTrends`: the series name of a category — its first matching
tier's name, else the category itself. -/
def tierNameOf (stg : Settings) (category : Str) : Str :=
  match getTierForCategory stg category with
  | some t => t.name
  | none => category

/-- Grouping of a spending list into per-name month series: the shape shared
by `GetCategoryTrends` (name = tier) and `GetCategoryTrendsFiltered`
(name = category); amounts of one name and month are summed, series are
sorted by month, results by name. -/
def trendsFrom (nameOf : Str → Str) (spending : List CategorySpending) :
    List CategoryTrendData :=
  List.insertionSort (fun a b => strLe a.category b.category = true)
    (((spending.map (fun s => nameOf s.category)).dedup).map fun name =>
      { category := name
        data :=
          (List.insertionSort (fun a b => strLe a b = true)
              (((spending.filter (fun s => decide (nameOf s.category = name))).map
                  (fun s => s.month)).dedup)).map
            fun month =>
              ⟨month,
                ((spending.filter
                    (fun s => decide (nameOf s.category = name) &&
                      decide (s.month = month))).map (fun s => s.amount)).sum⟩ })

/-- `parser.go` `GetCategoryTrends`: category spending rolled up by tier
(`GetTierForCategory`; unmatched categories stand for themselves). -/
def getCategoryTrends (stg : Settings) (txs : List Transaction) : List CategoryTrendData :=
  trendsFrom (tierNameOf stg) (getCategorySpending txs)

/-- `filtered_methods.go` `GetCategoryTrendsFiltered`: category spending
grouped by the category itself — no tier lookup on this path. -/
def getCategoryTrendsFiltered (txs : List Transaction) : List CategoryTrendData :=
  trendsFrom (fun c => c) (getCategorySpendingFiltered txs)

/-- A tier configuration claiming `Groceries` for tier `Essential`. -/
def c3stg : Settings := ⟨[⟨str "Essential", [str "Groceries"], str "#27ae60"⟩], 0⟩

/-- One `Groceries` expense of 100 on 2024-01-01. -/
def c3txs : List Transaction :=
  [⟨str "2024-01-01", str "g", [⟨str "expenses:Groceries", [⟨str "$", ⟨10000, 2⟩⟩], []⟩]⟩]

def isIncomePosting (p : Posting) : Bool := goHasPrefix p.account (str "income:")

/-- `GetMonthlyMetrics`: the sorted keys of the `month -> {income, expenses}`
map (a month is written when it has an income or expense posting). -/
def mmMonths (txs : List Transaction) : List Str :=
  List.insertionSort (fun a b => strLe a b = true)
    ((txs.flatMap fun tx =>
        (tx.tpostings.filter (fun p => isIncomePosting p || isExpensePosting p)).map
          (fun _ => getYearMonth tx.tdate)).dedup)

/-- `GetMonthlyMetrics`: `data.income += -amount` over a month's income
postings (income is negative in hledger and negated, not made absolute). -/
def mmIncome (txs : List Transaction) (month : Str) : ℚ :=
  (txs.flatMap fun tx =>
      (tx.tpostings.filter
          (fun p => isIncomePosting p && decide (getYearMonth tx.tdate = month))).map
        (fun p => -(postingAmount p))).sum

/-- `GetMonthlyMetrics`: `data.expenses += amount` over a month's expense
postings (raw sign). -/
def mmExpenses (txs : List Transaction) (month : Str) : ℚ :=
  (txs.flatMap fun tx =>
      (tx.tpostings.filter
          (fun p => isExpensePosting p && decide (getYearMonth tx.tdate = month))).map
        (fun p => postingAmount p)).sum

/-- `parser.go` `GetMonthlyMetrics`: per month income, expenses, savings
rate — and `netWorth`, which the source leaves at its `0.0` initialisation
("simplified version" comment). -/
def getMonthlyMetrics (txs : List Transaction) : List MonthlyMetrics :=
  (mmMonths txs).map fun month =>
    let income := mmIncome txs month
    let expenses := mmExpenses txs month
    let netWorth : ℚ := 0
    let savingsRate := if 0 < income then (income - expenses) / income * 100 else 0
    { month := month
      income := round2 income
      expenses := round2 expenses
      netWorth := netWorth
      savingsRate := round2 savingsRate }

/-- `filtered_methods.go` `GetMonthlyMetricsFiltered`: the same aggregation
on the date-bounded list; `NetWorth: 0.0, // Simplified` verbatim. -/
def getMonthlyMetricsFiltered (txs : List Transaction) : List MonthlyMetrics :=
  (mmMonths txs).map fun month =>
    let income := mmIncome txs month
    let expenses := mmExpenses txs month
    let savingsRate := if 0 < income then (income - expenses) / income * 100 else 0
    { month := month
      income := round2 income
      expenses := round2 expenses
      netWorth := 0
      savingsRate := round2 savingsRate }

/-- `strings.Join`-style reassembly with `:` separators. -/
def joinColon : List Str → Str
  | [] => []
  | [s] => s
  | s :: rest => s ++ ':' :: joinColon rest

/-- Modelled from the spec: `extractSubcategory` is called by the detail
builders but is not among the repository's files.  Per §4.2: for `expenses:`
paths, segments `[1 .. 1+depth]` joined by colon; for other kinds, segments
`[0 .. depth]`; an out-of-range depth silently clamps (here via `take`). -/
def extractSubcategory (account : Str) (depth : ℕ) : Str :=
  let parts := splitColon account
  if goHasPrefix account (str "expenses:") then joinColon ((parts.drop 1).take (depth + 1))
  else joinColon (parts.take (depth + 1))

/-- Modelled from the spec: the unfiltered `GetBudgetHistory` (which
`GetCategoryDetailFiltered` calls for its `budgetHistory` field) is not
among the repository's files.  Per §4.4 Policy B and §3: items only for
categories with at least 2 months of non-current-month history, both
averages over the non-current-month values, 2x-mean trim, full per-month
series. -/
def getBudgetHistory (txs : List Transaction) (currentMonth : Str) :
    List BudgetHistoryItem :=
  List.insertionSort (fun a b => strLe a.category b.category = true)
    (((bhCategories txs).filter
        (fun c => !decide ((historyAmounts txs currentMonth c).length < 2))).map
      fun category =>
        let amounts := historyAmounts txs currentMonth category
        let avg := meanQ amounts
        { category := category
          average := round2 avg
          averageExcludingExtremes := round2 (bhAvgExcludingExtremes amounts)
          months := (bhAllMonths txs).map fun month =>
            let amount := spendOf txs month category
            let percent := if 0 < avg then amount / avg * 100 else 0
            let year := if 4 ≤ month.length then month.take 4 else []
            { month := month
              year := year
              amount := round2 amount
              percentOfBudget := round2 percent
              overBudget := decide (avg < amount) } })

/-- `GetCategoryDetailFiltered`'s per-posting category: `parts[1]` when the
account has 2 segments, else the empty string (unlike `categoryOf`, which
falls back to the whole account). -/
def detailCategoryOf (account : Str) : Str :=
  let parts := splitColon account
  if 2 ≤ parts.length then parts.getD 1 [] else []

/-- `GetCategoryDetailFiltered`: the (subcategory, positive amount) writes to
`subcategoryTotals`, one per expense posting of the requested category. -/
def detailEntries (stg : Settings) (txs : List Transaction) (category : Str) :
    List (Str × ℚ) :=
  txs.flatMap fun tx =>
    (tx.tpostings.filter
        (fun p => isExpensePosting p && decide (detailCategoryOf p.account = category))).map
      fun p => (extractSubcategory p.account stg.subcategoryDepth, expAmount p)

/-- `filtered_methods.go` `GetCategoryDetailFiltered`: the matching
transactions, the budget history of the category (over the *unfiltered*
transaction list `allTxs`, as the source calls `GetBudgetHistory()`), and
the subcategory breakdown sorted by amount descending.  The breakdown
amounts are the raw sums — the source applies no rounding to them. -/
def getCategoryDetailFiltered (stg : Settings) (allTxs : List Transaction)
    (currentMonth : Str) (txs : List Transaction) (category : Str) :
    CategoryDetailData :=
  let entries := detailEntries stg txs category
  { category := category
    transactions := txs.filter fun tx =>
      tx.tpostings.any fun p =>
        isExpensePosting p && decide (detailCategoryOf p.account = category)
    budgetHistory :=
      (getBudgetHistory allTxs currentMonth).filter
        (fun item => decide (item.category = category))
    breakdown :=
      List.insertionSort (fun a b => decide (b.amount ≤ a.amount) = true)
        (((entries.map (fun e => e.1)).dedup).map fun name =>
          ⟨name, ((entries.filter (fun e => decide (e.1 = name))).map
              (fun e => e.2)).sum⟩) }

/-- Settings with no tiers and subcategory depth 0. -/
def c9stg : Settings := ⟨[], 0⟩

/-- One expense posting of 12.3456 (mantissa 123456, scale 4). -/
def c9txs : List Transaction :=
  [⟨str "2024-01-01", str "x", [⟨str "expenses:Food:Coffee", [⟨str "$", ⟨123456, 4⟩⟩], []⟩]⟩]

/-- `dashboard` `SummaryData`. -/
structure SummaryData where
  totalAssets : ℚ
  totalLiabilities : ℚ
  netWorth : ℚ
  deriving DecidableEq

/-- `dashboard` `CachedData`: one immutable snapshot of every report
(`LastRefresh` as an abstract tick). -/
structure CachedData where
  accounts : List Account
  transactions : List Transaction
  budget : List BudgetItem
  budgetHistory : List BudgetHistoryItem
  monthlyMetrics : List MonthlyMetrics
  categorySpending : List CategorySpending
  netWorthOverTime : List NetWorthPoint
  categoryTrends : List CategoryTrendData
  yearOverYear : List YearOverYearData
  summary : SummaryData
  lastRefresh : ℕ
  stale : Bool
  deriving DecidableEq

/-- The `dashboard.Service` state the lock protects: the settings, the
snapshot pointer and the in-flight flag. -/
structure ServiceState where
  settings : Settings
  cache : Option CachedData
  cacheRefreshing : Bool
  deriving DecidableEq

/-- The outcomes of the parser calls one `RebuildCache` run performs, each
fallible (the `hledger` subprocess may fail). -/
structure RebuildFetch where
  accounts : Except Str (List Account)
  transactions : Except Str (List Transaction)
  budget : Except Str (List BudgetItem)
  budgetHistory : Except Str (List BudgetHistoryItem)
  monthlyMetrics : Except Str (List MonthlyMetrics)
  categorySpending : Except Str (List CategorySpending)
  netWorthOverTime : Except Str (List NetWorthPoint)
  categoryTrends : Except Str (List CategoryTrendData)
  yearOverYear : Except Str (List YearOverYearData)

/-- `RebuildCache`'s summary computation over the fetched accounts
(`assets:` balances summed; `liabilities:` balances negated and summed). -/
def computeSummary (accounts : List Account) : SummaryData :=
  let totalAssets :=
    ((accounts.filter (fun a => goHasPrefix a.name (str "assets:"))).map
      (fun a => a.balance)).sum
  let totalLiabilities :=
    ((accounts.filter (fun a => goHasPrefix a.name (str "liabilities:"))).map
      (fun a => -a.balance)).sum
  ⟨totalAssets, totalLiabilities, totalAssets - totalLiabilities⟩

/-- The sequential body of `RebuildCache` after the single-flight guard:
each fetch in source order, stopping at the first error; on success the new
snapshot with `Stale: false`. -/
def rebuildData (r : RebuildFetch) (now : ℕ) : Except Str CachedData :=
  match r.accounts with
  | .error e => .error e
  | .ok accounts =>
    let summary := computeSummary accounts
    match r.transactions with
    | .error e => .error e
    | .ok transactions =>
      match r.budget with
      | .error e => .error e
      | .ok budget =>
        match r.budgetHistory with
        | .error e => .error e
        | .ok budgetHistory =>
          match r.monthlyMetrics with
          | .error e => .error e
          | .ok monthlyMetrics =>
            match r.categorySpending with
            | .error e => .error e
            | .ok categorySpending =>
              match r.netWorthOverTime with
              | .error e => .error e
              | .ok netWorthOverTime =>
                match r.categoryTrends with
                | .error e => .error e
                | .ok categoryTrends =>
                  match r.yearOverYear with
                  | .error e => .error e
                  | .ok yearOverYear =>
                    .ok ⟨accounts, transactions, budget, budgetHistory,
                      monthlyMetrics, categorySpending, netWorthOverTime,
                      categoryTrends, yearOverYear, summary, now, false⟩

/-- `dashboard` `RebuildCache`: fail fast with "refresh already in progress"
when a rebuild is in flight (state untouched); otherwise run the fetches
with the flag held (the deferred reset restores it, so the returned state
keeps `cacheRefreshing = false`), installing the snapshot only on full
success. -/
def rebuildCache (s : ServiceState) (r : RebuildFetch) (now : ℕ) :
    ServiceState × Except Str Unit :=
  if s.cacheRefreshing then (s, .error (str "refresh already in progress"))
  else
    match rebuildData r now with
    | .error e => (s, .error e)
    | .ok data => ({ s with cache := some data }, .ok ())

/-- The three shapes of `HandleCacheRefresh`'s HTTP response. -/
inductive RefreshResponse where
  | accepted
  | serverError (msg : Str)
  | rebuilt
  deriving DecidableEq

/-- `dashboard` `HandleCacheRefresh`: 202 with `inProgress: true` exactly for
the "refresh already in progress" error, 500 for other errors, 200 on
success. -/
def handleCacheRefresh (s : ServiceState) (r : RebuildFetch) (now : ℕ) :
    ServiceState × RefreshResponse :=
  match rebuildCache s r now with
  | (s2, .error e) =>
    (s2, if e = str "refresh already in progress" then .accepted else .serverError e)
  | (s2, .ok _) => (s2, .rebuilt)

/-- Every parser call of a rebuild succeeded. -/
def allFetchesOk (r : RebuildFetch) : Prop :=
  r.accounts.isOk = true ∧ r.transactions.isOk = true ∧ r.budget.isOk = true ∧
  r.budgetHistory.isOk = true ∧ r.monthlyMetrics.isOk = true ∧
  r.categorySpending.isOk = true ∧ r.netWorthOverTime.isOk = true ∧
  r.categoryTrends.isOk = true ∧ r.yearOverYear.isOk = true

/-- The payload of `HandleCacheStatus`. -/
structure CacheStatus where
  hasCache : Bool
  inProgress : Bool
  lastRefresh : Option ℕ
  stale : Bool
  deriving DecidableEq

/-- `dashboard` `HandleCacheStatus`: cache presence, the in-flight flag, and
the installed snapshot's refresh tick and stale flag. -/
def handleCacheStatus (s : ServiceState) : CacheStatus :=
  match s.cache with
  | none => ⟨false, s.cacheRefreshing, none, false⟩
  | some c => ⟨true, s.cacheRefreshing, some c.lastRefresh, c.stale⟩

/-- `dashboard` `HandleUpdateSettings`: swap the settings and mark the
installed snapshot (if any) stale, touching nothing else of it. -/
def handleUpdateSettings (s : ServiceState) (newSettings : Settings) : ServiceState :=
  { s with
    settings := newSettings
    cache :=
      match s.cache with
      | none => none
      | some c => some { c with stale := true } }

/-- The cached read path of `HandleBudgetComparison` (`none` = the
"cache empty; refresh required" signal). -/
def cachedBudget (s : ServiceState) : Option (List BudgetItem) :=
  s.cache.map (fun c => c.budget)

/-- The cached read path of `HandleBudgetHistory`. -/
def cachedBudgetHistory (s : ServiceState) : Option (List BudgetHistoryItem) :=
  s.cache.map (fun c => c.budgetHistory)

/-- The cached read path of `HandleMonthlyMetrics`. -/
def cachedMonthlyMetrics (s : ServiceState) : Option (List MonthlyMetrics) :=
  s.cache.map (fun c => c.monthlyMetrics)

/-- The cached read path of `HandleCategorySpending`. -/
def cachedCategorySpending (s : ServiceState) : Option (List CategorySpending) :=
  s.cache.map (fun c => c.categorySpending)

/-- The cached read path of `HandleNetWorthOverTime`. -/
def cachedNetWorthOverTime (s : ServiceState) : Option (List NetWorthPoint) :=
  s.cache.map (fun c => c.netWorthOverTime)

/-- The cached read path of `HandleCategoryTrends`. -/
def cachedCategoryTrends (s : ServiceState) : Option (List CategoryTrendData) :=
  s.cache.map (fun c => c.categoryTrends)

/-- The cached read path of `HandleYearOverYearComparison`. -/
def cachedYearOverYear (s : ServiceState) : Option (List YearOverYearData) :=
  s.cache.map (fun c => c.yearOverYear)

/-- The cached read path of `HandleAccounts`. -/
def cachedAccounts (s : ServiceState) : Option (List Account) :=
  s.cache.map (fun c => c.accounts)

/-- The cached read path of `HandleTransactions`. -/
def cachedTransactions (s : ServiceState) : Option (List Transaction) :=
  s.cache.map (fun c => c.transactions)

/-- The cached read path of `HandleSummary`. -/
def cachedSummary (s : ServiceState) : Option SummaryData :=
  s.cache.map (fun c => c.summary)

/-- An empty snapshot, for concrete states. -/
def emptySnapshot : CachedData :=
  ⟨[], [], [], [], [], [], [], [], [], ⟨0, 0, 0⟩, 0, false⟩

/-- A state with a rebuild in flight. -/
def busyState : ServiceState := ⟨⟨[], 0⟩, some emptySnapshot, true⟩

/-- An idle state with no snapshot. -/
def emptyState : ServiceState := ⟨⟨[], 0⟩, none, false⟩

/-- A fetch whose first call fails. -/
def fetchFail : RebuildFetch :=
  ⟨.error (str "exec"), .error (str "exec"), .error (str "exec"),
    .error (str "exec"), .error (str "exec"), .error (str "exec"),
    .error (str "exec"), .error (str "exec"), .error (str "exec")⟩

/-- A fetch whose every call succeeds (with empty data). -/
def fetchOk : RebuildFetch :=
  ⟨.ok [], .ok [], .ok [], .ok [], .ok [], .ok [], .ok [], .ok [], .ok []⟩

/-! ## Theorems -/

theorem mem_bhCategories_iff {txs : List Transaction} {category : Str} :
    category ∈ bhCategories txs ↔
      ∃ tx ∈ txs, ∃ p ∈ tx.tpostings,
        isExpensePosting p = true ∧ categoryOf p.account = category := by
  simp only [bhCategories, expenseKeys, expenseEntries, List.mem_dedup,
    List.mem_map, List.mem_flatMap, List.mem_filter]
  constructor
  · rintro ⟨k, ⟨e, ⟨tx, htx, ⟨p, hp, rfl⟩⟩, rfl⟩, rfl⟩
    exact ⟨tx, htx, p, hp.1, hp.2, rfl⟩
  · rintro ⟨tx, htx, p, hp, hexp, rfl⟩
    exact ⟨_, ⟨_, ⟨tx, htx, p, ⟨hp, hexp⟩, rfl⟩, rfl⟩, rfl⟩

theorem bhAmounts_length_pos {txs : List Transaction} {category : Str}
    (h : category ∈ bhCategories txs) : 1 ≤ (bhAmounts txs category).length := by
  simp only [bhCategories, List.mem_dedup, List.mem_map] at h
  obtain ⟨k, hk, rfl⟩ := h
  have hmem : k ∈ (expenseKeys txs).filter (fun j => decide (j.2 = k.2)) :=
    List.mem_filter.mpr ⟨hk, by simp⟩
  have hne : ((expenseKeys txs).filter (fun j => decide (j.2 = k.2))).length ≠ 0 := by
    intro h0
    rw [List.length_eq_zero] at h0
    rw [h0] at hmem
    exact absurd hmem (List.not_mem_nil k)
  simp only [bhAmounts, List.length_map]
  omega

theorem removeOutliers_of_le_two {values : List ℚ} (h : values.length ≤ 2) :
    removeOutliers values = values := by
  unfold removeOutliers
  rw [if_pos h]

theorem removeOutliers_of_three_le {values : List ℚ} (h : 3 ≤ values.length) :
    removeOutliers values = iqrKeepSpec values := by
  unfold removeOutliers iqrKeepSpec
  rw [if_neg (by omega), if_neg (by omega)]

theorem iqrKeepSpec_perm_of_len_two {values : List ℚ} (h : values.length = 2) :
    (iqrKeepSpec values).Perm values := by
  have hlen : (List.insertionSort (fun a b : ℚ => a ≤ b) values).length = 2 := by
    rw [List.length_insertionSort]; exact h
  obtain ⟨a, b, hab⟩ := List.length_eq_two.mp hlen
  have hsorted := List.sorted_insertionSort (fun a b : ℚ => a ≤ b) values
  rw [hab] at hsorted
  have hle : a ≤ b := by
    simpa using hsorted
  have hperm := List.perm_insertionSort (fun a b : ℚ => a ≤ b) values
  unfold iqrKeepSpec
  rw [h, hab]
  have hq1 : ([a, b].getD (2 / 4) 0) = a := by norm_num
  have hq3 : ([a, b].getD (2 * 3 / 4) 0) = b := by norm_num
  simp only [hq1, hq3]
  have hall : ∀ v ∈ [a, b],
      (decide (a - 3 / 2 * (b - a) ≤ v) && decide (v ≤ b + 3 / 2 * (b - a))) = true := by
    intro v hv
    simp only [Bool.and_eq_true, decide_eq_true_eq]
    rcases List.mem_pair.mp hv with rfl | rfl
    · constructor <;> nlinarith
    · constructor <;> nlinarith
  rw [List.filter_eq_self.mpr hall]
  rw [← hab]
  exact hperm

theorem removeOutliers_perm_spec {values : List ℚ} (h : 2 ≤ values.length) :
    (removeOutliers values).Perm (iqrKeepSpec values) := by
  rcases Nat.lt_or_ge values.length 3 with h3 | h3
  · have h2 : values.length = 2 := by omega
    rw [removeOutliers_of_le_two (by omega)]
    exact (iqrKeepSpec_perm_of_len_two h2).symm
  · rw [removeOutliers_of_three_le h3]

theorem meanQ_of_perm {l1 l2 : List ℚ} (h : l1.Perm l2) : meanQ l1 = meanQ l2 := by
  unfold meanQ
  rw [h.sum_eq, h.length_eq]

/-- C1: for every category history with at least 2 values, `GetBudgetData`'s
trimming step keeps exactly the spec's IQR band (Q1 at index `⌊n/4⌋`, Q3 at
index `⌊3n/4⌋`, band `[Q1 - 1.5·IQR, Q3 + 1.5·IQR]` over the sorted values)
and averages the kept values; on the §8 history `[100, 100, 100, 100, 1000]`
the 1000 is excluded, the average is 100, and the full budget report for
such a category emits average 100. -/
theorem budgetData_iqr_trim_spec :
    (∀ values : List ℚ, 2 ≤ values.length →
        (removeOutliers values).Perm (iqrKeepSpec values) ∧
        meanQ (removeOutliers values) = meanQ (iqrKeepSpec values)) ∧
    removeOutliers [100, 100, 100, 100, 1000] = [100, 100, 100, 100] ∧
    meanQ (removeOutliers [100, 100, 100, 100, 1000]) = 100 ∧
    getBudgetData c1txs (str "2024-06") = [⟨str "Food", 100, 0, -100, 0⟩] := by
  refine ⟨fun values h => ⟨removeOutliers_perm_spec h, meanQ_of_perm (removeOutliers_perm_spec h)⟩, ?_, ?_, ?_⟩
  · decide
  · decide
  · decide

/-- Witness for C1: the universally quantified part applied to the concrete
history `[100, 100, 100, 100, 1000]`. -/
theorem budgetData_iqr_trim_spec_witness :
    (removeOutliers [100, 100, 100, 100, 1000]).Perm
      (iqrKeepSpec [100, 100, 100, 100, 1000]) :=
  (budgetData_iqr_trim_spec.1 [100, 100, 100, 100, 1000] (by decide)).1

/-- C5 (amended): the IQR step performs no trimming when `n ≤ 2`, or when the
Q1 *index* `⌊n/4⌋` equals the Q3 *index* `⌊3n/4⌋` (the test the source
performs, true only for `n ≤ 1`); in those cases the kept list is exactly the
input and the budget average equals the plain mean.  The source compares the
indices, not the values `Q1` and `Q3` as the claim states. -/
theorem removeOutliers_no_trim (values : List ℚ)
    (h : values.length ≤ 2 ∨ values.length / 4 = values.length * 3 / 4) :
    removeOutliers values = values ∧ meanQ (removeOutliers values) = meanQ values := by
  have h2 : values.length ≤ 2 := by
    rcases h with h | h
    · exact h
    · omega
  rw [removeOutliers_of_le_two h2]
  exact ⟨rfl, rfl⟩

/-- Witness for C5: the amended no-trim theorem at the two-element history
`[5, 3]`. -/
theorem removeOutliers_no_trim_witness :
    removeOutliers [5, 3] = [5, 3] :=
  (removeOutliers_no_trim [5, 3] (Or.inl (by decide))).1

/-- C5 counterexample: on `[100, 100, 100, 100, 1000]` the value Q1 equals
the value Q3 (both 100), yet the source trims (the 1000 is dropped and the
average changes), refuting the claim's `Q1 == Q3` no-trim condition. -/
theorem removeOutliers_q1_eq_q3_counterexample :
    q1Of [100, 100, 100, 100, 1000] = q3Of [100, 100, 100, 100, 1000] ∧
    removeOutliers [100, 100, 100, 100, 1000] ≠ [100, 100, 100, 100, 1000] ∧
    meanQ (removeOutliers [100, 100, 100, 100, 1000]) ≠
      meanQ [100, 100, 100, 100, 1000] := by
  refine ⟨by decide, by decide, by decide⟩

/-- C2: every budget-history item's `averageExcludingExtremes` is the
single-pass 2x-mean trim of its category's history (threshold `2 * mean`
computed once from the untrimmed data), its `average` the untrimmed mean;
when nothing is discarded the two averages agree; on
`[100, 100, 100, 100, 1000]` the mean is 280, the 1000 is discarded and the
trimmed average is 100, as the full report on `c1txs` emits. -/
theorem budgetHistory_avgExcl_spec :
    (∀ (txs : List Transaction) (item : BudgetHistoryItem),
        item ∈ getBudgetHistoryFiltered txs →
          item.average = round2 (meanQ (bhAmounts txs item.category)) ∧
          item.averageExcludingExtremes =
            round2 (bhAvgExcludingExtremes (bhAmounts txs item.category))) ∧
    (∀ amounts : List ℚ, (∀ v ∈ amounts, v ≤ meanQ amounts * 2) →
        bhAvgExcludingExtremes amounts = meanQ amounts) ∧
    meanQ [100, 100, 100, 100, 1000] = 280 ∧
    bhAvgExcludingExtremes [100, 100, 100, 100, 1000] = 100 ∧
    (getBudgetHistoryFiltered c1txs).map
        (fun i => (i.category, i.average, i.averageExcludingExtremes)) =
      [(str "Food", 280, 100)] := by
  refine ⟨?_, ?_, by decide, by decide, by decide⟩
  · intro txs item hmem
    simp only [getBudgetHistoryFiltered, List.mem_insertionSort, List.mem_map,
      List.mem_filter] at hmem
    obtain ⟨c, hc, rfl⟩ := hmem
    exact ⟨rfl, rfl⟩
  · intro amounts h
    have hf : bhFilteredAmounts amounts = amounts :=
      List.filter_eq_self.mpr (fun a ha => by simpa using h a ha)
    unfold bhAvgExcludingExtremes
    rw [hf]
    split
    · rfl
    · rfl

/-- Witness for C2: both quantified parts at concrete inputs (the
single-month report `c6txs`, and a history nothing is discarded from). -/
theorem budgetHistory_avgExcl_spec_witness :
    (c6item.averageExcludingExtremes =
        round2 (bhAvgExcludingExtremes (bhAmounts c6txs c6item.category))) ∧
    bhAvgExcludingExtremes [100, 100, 100, 100] = meanQ [100, 100, 100, 100] :=
  ⟨(budgetHistory_avgExcl_spec.1 c6txs c6item (by decide)).2,
    budgetHistory_avgExcl_spec.2.1 [100, 100, 100, 100] (by decide)⟩

/-- C6 (amended): `GetBudgetHistoryFiltered` produces an item for a category
if and only if some transaction of the report's range has an expense posting
of that category — i.e. at least 1 month of history, with the current
calendar month counted (the source's guard is `len(amounts) < 1` and it
never consults the clock), not the claim's 2 non-current months. -/
theorem budgetHistory_item_iff_history (txs : List Transaction) (category : Str) :
    (∃ item ∈ getBudgetHistoryFiltered txs, item.category = category) ↔
      ∃ tx ∈ txs, ∃ p ∈ tx.tpostings,
        isExpensePosting p = true ∧ categoryOf p.account = category := by
  constructor
  · rintro ⟨item, hmem, rfl⟩
    simp only [getBudgetHistoryFiltered, List.mem_insertionSort, List.mem_map,
      List.mem_filter] at hmem
    obtain ⟨c, ⟨hc, _⟩, rfl⟩ := hmem
    exact mem_bhCategories_iff.mp hc
  · intro h
    have hc := mem_bhCategories_iff.mpr h
    have hlen := bhAmounts_length_pos hc
    refine ⟨bhItem txs category, ?_, rfl⟩
    simp only [getBudgetHistoryFiltered, List.mem_insertionSort, List.mem_map,
      List.mem_filter]
    refine ⟨category, ⟨hc, ?_⟩, rfl⟩
    simp only [Bool.not_eq_eq_eq_not, Bool.not_true, decide_eq_false_iff_not]
    omega

/-- C6 counterexample: a category (`Food`) with exactly 1 month of history
does get a `BudgetHistoryItem`, refuting the at-least-2-months condition. -/
theorem budgetHistory_single_month_counterexample :
    (getBudgetHistoryFiltered c6txs).map BudgetHistoryItem.category = [str "Food"] ∧
    (bhAmounts c6txs (str "Food")).length = 1 :=
  ⟨by decide, by decide⟩


theorem netWorth_dates (txs : List Transaction) (d : Str) :
    d ∈ (getNetWorthOverTime txs).map NetWorthPoint.date ↔
      d ∈ txs.map Transaction.tdate := by
  simp [getNetWorthOverTime, List.mem_map, List.mem_insertionSort, List.mem_dedup]

/-- C7: `GetNetWorthOverTime` records a point exactly at the dates that have
at least one transaction, each point the running assets-minus-liabilities
value (liabilities as positive magnitudes); on the §8 input (+100
`assets:checking` on 2024-01-01, -30 `liabilities:card` on 2024-01-02) the
series is exactly 100 then 70. -/
theorem netWorthOverTime_spec :
    (∀ (txs : List Transaction) (d : Str),
        d ∈ (getNetWorthOverTime txs).map NetWorthPoint.date ↔
          d ∈ txs.map Transaction.tdate) ∧
    getNetWorthOverTime c7txs =
      [⟨str "2024-01-01", 100⟩, ⟨str "2024-01-02", 70⟩] :=
  ⟨netWorth_dates, by decide⟩

/-- C10: on every input, both `GetMonthlyMetrics` and
`GetMonthlyMetricsFiltered` emit `NetWorth = 0` for every month: the field
is a stub, never computed. -/
theorem monthlyMetrics_netWorth_stub (txs : List Transaction) :
    ((getMonthlyMetrics txs).all fun m => decide (m.netWorth = 0)) = true ∧
    ((getMonthlyMetricsFiltered txs).all fun m => decide (m.netWorth = 0)) = true := by
  constructor
  · simp [getMonthlyMetrics, List.all_eq_true]
  · simp [getMonthlyMetricsFiltered, List.all_eq_true]

/-- C3: the all-time filtered path does not equal the cached path on the two
reports the claim names.  Net worth: the filtered builder sums each date's
asset/liability deltas instead of the running balance, giving 30 instead of
70 on 2024-01-02 of the §8 example.  Category trends: the filtered builder
groups by category while the cached one groups by tier, so a configured tier
renames the cached series. -/
theorem filteredPath_divergence :
    getNetWorthOverTimeFiltered c7txs ≠ getNetWorthOverTime c7txs ∧
    getNetWorthOverTimeFiltered c7txs =
      [⟨str "2024-01-01", 100⟩, ⟨str "2024-01-02", 30⟩] ∧
    getNetWorthOverTime c7txs =
      [⟨str "2024-01-01", 100⟩, ⟨str "2024-01-02", 70⟩] ∧
    getCategoryTrendsFiltered c3txs ≠ getCategoryTrends c3stg c3txs ∧
    (getCategoryTrends c3stg c3txs).map CategoryTrendData.category =
      [str "Essential"] ∧
    (getCategoryTrendsFiltered c3txs).map CategoryTrendData.category =
      [str "Groceries"] :=
  ⟨by decide, by decide, by decide, by decide, by decide, by decide⟩


theorem rebuildData_ok_of_isOk {r : RebuildFetch} {now : ℕ} {d : CachedData}
    (h : rebuildData r now = .ok d) : allFetchesOk r := by
  unfold rebuildData at h
  cases ha : r.accounts <;> rw [ha] at h
  case error => exact absurd h (by simp)
  case ok =>
  cases ht : r.transactions <;> rw [ht] at h
  case error => exact absurd h (by simp)
  case ok =>
  cases hb : r.budget <;> rw [hb] at h
  case error => exact absurd h (by simp)
  case ok =>
  cases hbh : r.budgetHistory <;> rw [hbh] at h
  case error => exact absurd h (by simp)
  case ok =>
  cases hmm : r.monthlyMetrics <;> rw [hmm] at h
  case error => exact absurd h (by simp)
  case ok =>
  cases hcs : r.categorySpending <;> rw [hcs] at h
  case error => exact absurd h (by simp)
  case ok =>
  cases hnw : r.netWorthOverTime <;> rw [hnw] at h
  case error => exact absurd h (by simp)
  case ok =>
  cases hct : r.categoryTrends <;> rw [hct] at h
  case error => exact absurd h (by simp)
  case ok =>
  cases hyy : r.yearOverYear <;> rw [hyy] at h
  case error => exact absurd h (by simp)
  case ok =>
  refine ⟨?_, ?_, ?_, ?_, ?_, ?_, ?_, ?_, ?_⟩ <;>
    simp [allFetchesOk, Except.isOk, Except.toBool, ha, ht, hb, hbh, hmm, hcs, hnw, hct, hyy]

/-- C4: when a rebuild is already in flight, `RebuildCache` fails
immediately with the error "refresh already in progress" and leaves the
whole service state (the installed snapshot included) unchanged, and
`HandleCacheRefresh` maps that error to the 202 in-progress response; and
the installed snapshot changes only when every report computation of the
rebuild succeeded. -/
theorem rebuild_single_flight :
    (∀ (s : ServiceState) (r : RebuildFetch) (now : ℕ), s.cacheRefreshing = true →
        rebuildCache s r now = (s, .error (str "refresh already in progress")) ∧
        handleCacheRefresh s r now = (s, RefreshResponse.accepted)) ∧
    (∀ (s : ServiceState) (r : RebuildFetch) (now : ℕ),
        (rebuildCache s r now).1.cache ≠ s.cache → allFetchesOk r) := by
  constructor
  · intro s r now h
    constructor
    · simp [rebuildCache, h]
    · simp [handleCacheRefresh, rebuildCache, h]
  · intro s r now hne
    by_cases h : s.cacheRefreshing = true
    · exact absurd (by simp [rebuildCache, h]) hne
    · rw [Bool.not_eq_true] at h
      cases hd : rebuildData r now with
      | error e => exact absurd (by simp [rebuildCache, h, hd]) hne
      | ok d => exact rebuildData_ok_of_isOk hd

/-- Witness for C4: the single-flight rejection on a busy state, and the
all-computations-succeeded condition of an installing rebuild. -/
theorem rebuild_single_flight_witness :
    (rebuildCache busyState fetchFail 0 =
        (busyState, .error (str "refresh already in progress")) ∧
      handleCacheRefresh busyState fetchFail 0 =
        (busyState, RefreshResponse.accepted)) ∧
    allFetchesOk fetchOk :=
  ⟨rebuild_single_flight.1 busyState fetchFail 0 (by decide),
    rebuild_single_flight.2 emptyState fetchOk 0 (by decide)⟩

/-- C8: a settings update turns the installed snapshot's `Stale` flag on and
changes nothing else of it: the cache-status query then reports
`stale = true` with the unchanged `lastRefresh`, and every cached report
query still answers with the prior snapshot's values. -/
theorem updateSettings_marks_stale (s : ServiceState) (ns : Settings)
    (c : CachedData) (h : s.cache = some c) :
    (handleUpdateSettings s ns).cache = some { c with stale := true } ∧
    handleCacheStatus (handleUpdateSettings s ns) =
      ⟨true, s.cacheRefreshing, some c.lastRefresh, true⟩ ∧
    cachedBudget (handleUpdateSettings s ns) = cachedBudget s ∧
    cachedBudgetHistory (handleUpdateSettings s ns) = cachedBudgetHistory s ∧
    cachedMonthlyMetrics (handleUpdateSettings s ns) = cachedMonthlyMetrics s ∧
    cachedCategorySpending (handleUpdateSettings s ns) = cachedCategorySpending s ∧
    cachedNetWorthOverTime (handleUpdateSettings s ns) = cachedNetWorthOverTime s ∧
    cachedCategoryTrends (handleUpdateSettings s ns) = cachedCategoryTrends s ∧
    cachedYearOverYear (handleUpdateSettings s ns) = cachedYearOverYear s ∧
    cachedAccounts (handleUpdateSettings s ns) = cachedAccounts s ∧
    cachedTransactions (handleUpdateSettings s ns) = cachedTransactions s ∧
    cachedSummary (handleUpdateSettings s ns) = cachedSummary s := by
  refine ⟨?_, ?_, ?_, ?_, ?_, ?_, ?_, ?_, ?_, ?_, ?_, ?_⟩ <;>
    simp [handleUpdateSettings, handleCacheStatus, cachedBudget,
      cachedBudgetHistory, cachedMonthlyMetrics, cachedCategorySpending,
      cachedNetWorthOverTime, cachedCategoryTrends, cachedYearOverYear,
      cachedAccounts, cachedTransactions, cachedSummary, h]

/-- Witness for C8: the update on a concrete installed snapshot. -/
theorem updateSettings_marks_stale_witness :
    (handleUpdateSettings ⟨⟨[], 0⟩, some emptySnapshot, false⟩ ⟨[], 1⟩).cache =
      some { emptySnapshot with stale := true } :=
  (updateSettings_marks_stale ⟨⟨[], 0⟩, some emptySnapshot, false⟩ ⟨[], 1⟩
    emptySnapshot (by decide)).1

theorem detailBreakdown_raw (stg : Settings) (allTxs : List Transaction)
    (cm : Str) (txs : List Transaction) (category : Str)
    (b : SubcategoryBreakdown)
    (hb : b ∈ (getCategoryDetailFiltered stg allTxs cm txs category).breakdown) :
    b.amount = (((detailEntries stg txs category).filter
        (fun e => decide (e.1 = b.name))).map (fun e => e.2)).sum := by
  simp only [getCategoryDetailFiltered, List.mem_insertionSort, List.mem_map] at hb
  obtain ⟨name, hname, rfl⟩ := hb
  rfl

/-- C9 (amended): the aggregate builders round exactly once at emission —
every `GetCategorySpending` amount is `round2` of the exact per-key sum —
but the detail builders' per-name breakdown amounts are emitted as the raw
unrounded sums, as the concrete 12.3456 breakdown shows. -/
theorem roundingAtEmission_spec :
    (∀ (txs : List Transaction) (cs : CategorySpending),
        cs ∈ getCategorySpending txs →
          cs.amount = round2 (spendOf txs cs.month cs.category)) ∧
    (∀ (stg : Settings) (allTxs : List Transaction) (cm : Str)
        (txs : List Transaction) (category : Str) (b : SubcategoryBreakdown),
        b ∈ (getCategoryDetailFiltered stg allTxs cm txs category).breakdown →
          b.amount = (((detailEntries stg txs category).filter
              (fun e => decide (e.1 = b.name))).map (fun e => e.2)).sum) ∧
    (getCategoryDetailFiltered c9stg c9txs (str "2099-01") c9txs (str "Food")).breakdown =
      [⟨str "Food", 123456 / 10000⟩] := by
  refine ⟨?_, ?_, by decide⟩
  · intro txs cs h
    simp only [getCategorySpending, List.mem_insertionSort, List.mem_map] at h
    obtain ⟨k, hk, rfl⟩ := h
    rfl
  · exact detailBreakdown_raw

/-- Witness for C9: both quantified parts at concrete report rows. -/
theorem roundingAtEmission_spec_witness :
    ((⟨str "2024-01", str "Groceries", (100 : ℚ)⟩ : CategorySpending).amount =
        round2 (spendOf c3txs (str "2024-01") (str "Groceries"))) ∧
    ((⟨str "Food", (123456 : ℚ) / 10000⟩ : SubcategoryBreakdown).amount =
        (((detailEntries c9stg c9txs (str "Food")).filter
            (fun e => decide (e.1 = str "Food"))).map (fun e => e.2)).sum) :=
  ⟨roundingAtEmission_spec.1 c3txs ⟨str "2024-01", str "Groceries", 100⟩ (by decide),
    roundingAtEmission_spec.2.1 c9stg c9txs (str "2099-01") c9txs (str "Food")
      ⟨str "Food", 123456 / 10000⟩ (by decide)⟩

/-- C9 counterexample: the category-detail breakdown emits 12.3456 raw,
which is not its 2-decimal rounding 12.35. -/
theorem detailBreakdown_unrounded_counterexample :
    ((getCategoryDetailFiltered c9stg c9txs (str "2099-01") c9txs
          (str "Food")).breakdown.map SubcategoryBreakdown.amount =
      [123456 / 10000]) ∧
    round2 ((123456 : ℚ) / 10000) ≠ (123456 : ℚ) / 10000 :=
  ⟨by decide, by decide⟩

end Minted
